import Mathlib

/-!
Verification of `discord_slash/cog_ext.py`: the two decorator factories
`cog_slash` and `cog_subcommand`.

The module is embedded shallowly.  A decorated Python function is modelled by
`CogExt.Cmd`, carrying its `__name__` and the result of `inspect.getdoc`
(`none` when the function has no docstring).  The helpers
`manage_commands.generate_options` and `manage_commands.generate_auto_convert`
live outside this module; the embedding is parametric in them, taking them as
explicit function arguments, since `cog_ext.py` only ever calls them as black
boxes.  Option dictionaries and auto-conversion dictionaries are likewise
abstract type parameters `α` and `γ`.

Python truthiness of the string-typed keyword arguments is modelled on
`Option String`: `None` and the empty string are falsy, every other string is
truthy.  The Python expression `a or b` becomes `orOpt`/`orStr` below.
-/

namespace CogExt

/-- A decorated Python function: its `__name__` and the result of
`inspect.getdoc` applied to it (`none` when there is no docstring). -/
structure Cmd where
  name : String
  docstring : Option String
deriving DecidableEq, Repr

/-- Python truthiness of an optional string argument: `None` and `""` are
falsy, all other strings are truthy. -/
def truthyStr : Option String → Bool
  | none => false
  | some s => !s.isEmpty

/-- Python `a or b` where `a` is an optional string and `b` is a plain
string: the value of `a` when truthy, otherwise `b`. -/
def orStr (a : Option String) (b : String) : String :=
  match a with
  | some s => if s.isEmpty then b else s
  | none => b

/-- Python `a or b` over two optional strings: the value of `a` when
truthy, otherwise `b` verbatim (including a falsy `b`). -/
def orOpt (a b : Option String) : Option String :=
  if truthyStr a then a else b

/-- Line 48 / 131 of `cog_ext.py`:
`desc = description or inspect.getdoc(cmd) or "No description"`. -/
def resolveDesc (description : Option String) (cmd : Cmd) : String :=
  orStr (orOpt description cmd.docstring) "No description"

/-- Lines 49-52 / 132-135 of `cog_ext.py`: the resolved option list,
`generate_options(cmd, desc)` when `options is None`, else `options`. -/
def resolveOpts {α : Type} (generate_options : Cmd → String → List α)
    (options : Option (List α)) (cmd : Cmd) (desc : String) : List α :=
  match options with
  | none => generate_options cmd desc
  | some o => o

/-- Lines 54-57 / 137-140 of `cog_ext.py`: `generate_auto_convert(opts)`
when `opts` is truthy (a non-empty list), else the caller's
`auto_convert` argument. -/
def resolveAutoConv {α γ : Type} (generate_auto_convert : List α → γ)
    (auto_convert : Option γ) (opts : List α) : Option γ :=
  if opts.isEmpty then auto_convert else some (generate_auto_convert opts)

/-- The `_cmd` record handed to `CogCommandObject` by `cog_slash`, together
with the command name passed as first constructor argument. -/
structure CogCommandObject (α γ : Type) where
  name : String
  func : Cmd
  description : String
  auto_convert : Option γ
  guild_ids : Option (List Int)
  api_options : List α
  has_subcommands : Bool
deriving DecidableEq, Repr

/-- The `_sub` record built by `cog_subcommand`'s wrapper. -/
structure SubRecord (α γ : Type) where
  func : Cmd
  name : String
  description : String
  base_desc : String
  sub_group_desc : String
  auto_convert : Option γ
  guild_ids : Option (List Int)
  api_options : List α
deriving DecidableEq, Repr

/-- The four constructor arguments of
`CogSubcommandObject(_sub, base, name or cmd.__name__, subcommand_group)`. -/
structure CogSubcommandObject (α γ : Type) where
  sub : SubRecord α γ
  base : String
  name : String
  subcommand_group : Option String
deriving DecidableEq, Repr

/-- `cog_slash` (lines 7-68 of `cog_ext.py`), applied to the decorated
function `cmd`.  The external helpers `generate_options` and
`generate_auto_convert` are passed in as parameters. -/
def cog_slash {α γ : Type}
    (generate_options : Cmd → String → List α)
    (generate_auto_convert : List α → γ)
    (name description : Option String)
    (auto_convert : Option γ)
    (guild_ids : Option (List Int))
    (options : Option (List α))
    (cmd : Cmd) : CogCommandObject α γ :=
  let desc := resolveDesc description cmd
  let opts := resolveOpts generate_options options cmd desc
  let auto_conv := resolveAutoConv generate_auto_convert auto_convert opts
  { name := orStr name cmd.name
    func := cmd
    description := desc
    auto_convert := auto_conv
    guild_ids := guild_ids
    api_options := opts
    has_subcommands := false }

/-- `cog_subcommand` (lines 71-153 of `cog_ext.py`), applied to the
decorated function `cmd`.  Lines 127-128 resolve the alias pairs before the
wrapper body runs; the wrapper then builds `_sub` and the constructor
arguments of `CogSubcommandObject`. -/
def cog_subcommand {α γ : Type}
    (generate_options : Cmd → String → List α)
    (generate_auto_convert : List α → γ)
    (base : String)
    (subcommand_group : Option String)
    (name description : Option String)
    (base_description base_desc : Option String)
    (subcommand_group_description sub_group_desc : Option String)
    (auto_convert : Option γ)
    (guild_ids : Option (List Int))
    (options : Option (List α))
    (cmd : Cmd) : CogSubcommandObject α γ :=
  let base_description := orOpt base_description base_desc
  let subcommand_group_description :=
    orOpt subcommand_group_description sub_group_desc
  let desc := resolveDesc description cmd
  let opts := resolveOpts generate_options options cmd desc
  let auto_conv := resolveAutoConv generate_auto_convert auto_convert opts
  { sub :=
      { func := cmd
        name := orStr name cmd.name
        description := desc
        base_desc := orStr base_description "No Description."
        sub_group_desc := orStr subcommand_group_description "No Description."
        auto_convert := auto_conv
        guild_ids := guild_ids
        api_options := opts }
    base := base
    name := orStr name cmd.name
    subcommand_group := subcommand_group }

/-- C1: with `options = None` the stored option list is exactly
`generate_options(cmd, desc)` for the resolved description `desc`; with
`options` not `None` it is the `options` argument unchanged, in both
`cog_slash` and `cog_subcommand`. -/
theorem options_resolution {α γ : Type}
    (go : Cmd → String → List α) (gac : List α → γ)
    (nm descr : Option String) (ac : Option γ) (g : Option (List Int))
    (base : String) (sg : Option String)
    (bd bda sgd sgda : Option String)
    (l : List α) (cmd : Cmd) :
    (cog_slash go gac nm descr ac g none cmd).api_options
        = go cmd (resolveDesc descr cmd)
    ∧ (cog_slash go gac nm descr ac g (some l) cmd).api_options = l
    ∧ (cog_subcommand go gac base sg nm descr bd bda sgd sgda
          ac g none cmd).sub.api_options
        = go cmd (resolveDesc descr cmd)
    ∧ (cog_subcommand go gac base sg nm descr bd bda sgd sgda
          ac g (some l) cmd).sub.api_options = l :=
  ⟨rfl, rfl, rfl, rfl⟩

/-- C2: the stored description is the `description` argument when truthy,
else the docstring (`inspect.getdoc`) when truthy, else the placeholder
`"No description"`, in both `cog_slash` and `cog_subcommand`. -/
theorem description_three_step_fallback {α γ : Type}
    (go : Cmd → String → List α) (gac : List α → γ)
    (nm descr : Option String) (ac : Option γ) (g : Option (List Int))
    (base : String) (sg : Option String)
    (bd bda sgd sgda : Option String)
    (opts : Option (List α)) (cmd : Cmd) :
    (cog_slash go gac nm descr ac g opts cmd).description
        = (if truthyStr descr then descr.getD ""
           else if truthyStr cmd.docstring then cmd.docstring.getD ""
           else "No description")
    ∧ (cog_subcommand go gac base sg nm descr bd bda sgd sgda
          ac g opts cmd).sub.description
        = (if truthyStr descr then descr.getD ""
           else if truthyStr cmd.docstring then cmd.docstring.getD ""
           else "No description") := by
  obtain ⟨n, d⟩ := cmd
  constructor <;>
    cases descr with
    | none =>
        cases d with
        | none => rfl
        | some s =>
            simp [cog_slash, cog_subcommand, resolveDesc, orOpt, orStr,
              truthyStr]
            cases h : s.isEmpty <;> simp [h]
    | some t =>
        cases d with
        | none =>
            simp [cog_slash, cog_subcommand, resolveDesc, orOpt, orStr,
              truthyStr]
            cases h : t.isEmpty <;> simp [h]
        | some s =>
            simp [cog_slash, cog_subcommand, resolveDesc, orOpt, orStr,
              truthyStr]
            cases h : t.isEmpty <;> cases h2 : s.isEmpty <;> simp [h, h2]

theorem resolveAutoConv_nonempty {α γ : Type} (gac : List α → γ)
    (ac : Option γ) (o : List α) (h : o ≠ []) :
    resolveAutoConv gac ac o = some (gac o) := by
  cases o with
  | nil => exact absurd rfl h
  | cons a t => rfl

theorem resolveAutoConv_empty {α γ : Type} (gac : List α → γ)
    (ac : Option γ) (o : List α) (h : o = []) :
    resolveAutoConv gac ac o = ac := by
  subst h; rfl

theorem resolveAutoConv_arg_congr {α γ : Type} (gac : List α → γ)
    (ac ac2 : Option γ) (o : List α) (h : o ≠ []) :
    resolveAutoConv gac ac o = resolveAutoConv gac ac2 o := by
  rw [resolveAutoConv_nonempty gac ac o h, resolveAutoConv_nonempty gac ac2 o h]

/-- C3: when the resolved option list is non-empty the stored
`auto_convert` is `generate_auto_convert(opts)`; when it is empty it is
the caller's `auto_convert` argument, in both `cog_slash` and
`cog_subcommand`. -/
theorem auto_convert_resolution {α γ : Type}
    (go : Cmd → String → List α) (gac : List α → γ)
    (nm descr : Option String) (ac : Option γ) (g : Option (List Int))
    (base : String) (sg : Option String)
    (bd bda sgd sgda : Option String)
    (opts : Option (List α)) (cmd : Cmd) :
    ((cog_slash go gac nm descr ac g opts cmd).api_options ≠ [] →
        (cog_slash go gac nm descr ac g opts cmd).auto_convert
          = some (gac (cog_slash go gac nm descr ac g opts cmd).api_options))
    ∧ ((cog_slash go gac nm descr ac g opts cmd).api_options = [] →
        (cog_slash go gac nm descr ac g opts cmd).auto_convert = ac)
    ∧ ((cog_subcommand go gac base sg nm descr bd bda sgd sgda
          ac g opts cmd).sub.api_options ≠ [] →
        (cog_subcommand go gac base sg nm descr bd bda sgd sgda
          ac g opts cmd).sub.auto_convert
          = some (gac (cog_subcommand go gac base sg nm descr bd bda sgd sgda
              ac g opts cmd).sub.api_options))
    ∧ ((cog_subcommand go gac base sg nm descr bd bda sgd sgda
          ac g opts cmd).sub.api_options = [] →
        (cog_subcommand go gac base sg nm descr bd bda sgd sgda
          ac g opts cmd).sub.auto_convert = ac) :=
  ⟨fun h => resolveAutoConv_nonempty gac ac _ h,
   fun h => resolveAutoConv_empty gac ac _ h,
   fun h => resolveAutoConv_nonempty gac ac _ h,
   fun h => resolveAutoConv_empty gac ac _ h⟩

/-- Witness for C3: both branches of `auto_convert_resolution`, evaluated at
concrete inputs. -/
theorem auto_convert_resolution_witness :
    (cog_slash (fun _ _ => [5]) (fun l => l.length)
        none none (some 9) none none ⟨"f", none⟩).auto_convert = some 1
    ∧ (cog_slash (fun _ _ => ([] : List Nat)) (fun l => l.length)
        none none (some 9) none none ⟨"f", none⟩).auto_convert = some 9
    ∧ (cog_subcommand (fun _ _ => [5]) (fun l => l.length) "b"
        none none none none none none none (some 9) none none
        ⟨"f", none⟩).sub.auto_convert = some 1
    ∧ (cog_subcommand (fun _ _ => ([] : List Nat)) (fun l => l.length) "b"
        none none none none none none none (some 9) none none
        ⟨"f", none⟩).sub.auto_convert = some 9 :=
  ⟨(auto_convert_resolution (fun _ _ => [5]) (fun l => l.length)
      none none (some 9) none "b" none none none none none none
      ⟨"f", none⟩).1 (by decide),
   (auto_convert_resolution (fun _ _ => ([] : List Nat)) (fun l => l.length)
      none none (some 9) none "b" none none none none none none
      ⟨"f", none⟩).2.1 (by decide),
   (auto_convert_resolution (fun _ _ => [5]) (fun l => l.length)
      none none (some 9) none "b" none none none none none none
      ⟨"f", none⟩).2.2.1 (by decide),
   (auto_convert_resolution (fun _ _ => ([] : List Nat)) (fun l => l.length)
      none none (some 9) none "b" none none none none none none
      ⟨"f", none⟩).2.2.2 (by decide)⟩

/-- C4: with a non-empty resolved option list the caller's `auto_convert`
argument does not influence the stored `auto_convert`; and passing
`options = []` bypasses `generate_options` (the result is the same for any
such helper) and stores the caller's `auto_convert` argument. -/
theorem auto_convert_argument_ignored {α γ : Type}
    (go go2 : Cmd → String → List α) (gac : List α → γ)
    (nm descr : Option String) (ac ac2 : Option γ) (g : Option (List Int))
    (base : String) (sg : Option String)
    (bd bda sgd sgda : Option String)
    (opts : Option (List α)) (cmd : Cmd) :
    ((cog_slash go gac nm descr ac g opts cmd).api_options ≠ [] →
        (cog_slash go gac nm descr ac g opts cmd).auto_convert
          = (cog_slash go gac nm descr ac2 g opts cmd).auto_convert)
    ∧ ((cog_subcommand go gac base sg nm descr bd bda sgd sgda
          ac g opts cmd).sub.api_options ≠ [] →
        (cog_subcommand go gac base sg nm descr bd bda sgd sgda
          ac g opts cmd).sub.auto_convert
          = (cog_subcommand go gac base sg nm descr bd bda sgd sgda
              ac2 g opts cmd).sub.auto_convert)
    ∧ cog_slash go gac nm descr ac g (some []) cmd
        = cog_slash go2 gac nm descr ac g (some []) cmd
    ∧ cog_subcommand go gac base sg nm descr bd bda sgd sgda
          ac g (some []) cmd
        = cog_subcommand go2 gac base sg nm descr bd bda sgd sgda
            ac g (some []) cmd
    ∧ (cog_slash go gac nm descr ac g (some []) cmd).auto_convert = ac
    ∧ (cog_subcommand go gac base sg nm descr bd bda sgd sgda
          ac g (some []) cmd).sub.auto_convert = ac :=
  ⟨fun h => resolveAutoConv_arg_congr gac ac ac2 _ h,
   fun h => resolveAutoConv_arg_congr gac ac ac2 _ h,
   rfl, rfl, rfl, rfl⟩

/-- Witness for C4: a pair of calls differing only in `auto_convert`, at a
concrete input with a non-empty resolved option list, plus the
`options = []` bypass, evaluated concretely. -/
theorem auto_convert_argument_ignored_witness :
    (cog_slash (fun _ _ => [5]) (fun l => l.length)
        none none (some 3) none none ⟨"f", none⟩).auto_convert
      = (cog_slash (fun _ _ => [5]) (fun l => l.length)
          none none (some 8) none none ⟨"f", none⟩).auto_convert
    ∧ (cog_subcommand (fun _ _ => [5]) (fun l => l.length) "b"
        none none none none none none none (some 3) none none
        ⟨"f", none⟩).sub.auto_convert
      = (cog_subcommand (fun _ _ => [5]) (fun l => l.length) "b"
          none none none none none none none (some 8) none none
          ⟨"f", none⟩).sub.auto_convert
    ∧ (cog_slash (fun _ _ => [5]) (fun l => l.length)
        none none (some 3) none (some []) ⟨"f", none⟩).auto_convert = some 3 :=
  ⟨(auto_convert_argument_ignored (fun _ _ => [5]) (fun _ _ => [5])
      (fun l => l.length) none none (some 3) (some 8) none "b"
      none none none none none none ⟨"f", none⟩).1 (by decide),
   (auto_convert_argument_ignored (fun _ _ => [5]) (fun _ _ => [5])
      (fun l => l.length) none none (some 3) (some 8) none "b"
      none none none none none none ⟨"f", none⟩).2.1 (by decide),
   (auto_convert_argument_ignored (fun _ _ => [5]) (fun _ _ => [5])
      (fun l => l.length) none none (some 3) (some 8) none "b"
      none none none none none none ⟨"f", none⟩).2.2.2.2.1⟩

/-- C5: in `cog_subcommand` the stored base description is the
`base_description` argument when truthy, else the `base_desc` alias when
truthy, else `"No Description."`; likewise `subcommand_group_description`
then `sub_group_desc` then `"No Description."` for the group
description. -/
theorem subcommand_alias_fallback {α γ : Type}
    (go : Cmd → String → List α) (gac : List α → γ)
    (nm descr : Option String) (ac : Option γ) (g : Option (List Int))
    (base : String) (sg : Option String)
    (bd bda sgd sgda : Option String)
    (opts : Option (List α)) (cmd : Cmd) :
    (cog_subcommand go gac base sg nm descr bd bda sgd sgda
        ac g opts cmd).sub.base_desc
      = (if truthyStr bd then bd.getD ""
         else if truthyStr bda then bda.getD ""
         else "No Description.")
    ∧ (cog_subcommand go gac base sg nm descr bd bda sgd sgda
        ac g opts cmd).sub.sub_group_desc
      = (if truthyStr sgd then sgd.getD ""
         else if truthyStr sgda then sgda.getD ""
         else "No Description.") := by
  constructor
  · show orStr (orOpt bd bda) "No Description." = _
    cases bd with
    | none =>
        cases bda with
        | none => rfl
        | some s =>
            simp [orOpt, orStr, truthyStr]
            cases h : s.isEmpty <;> simp [h]
    | some t =>
        cases bda with
        | none =>
            simp [orOpt, orStr, truthyStr]
            cases h : t.isEmpty <;> simp [h]
        | some s =>
            simp [orOpt, orStr, truthyStr]
            cases h : t.isEmpty <;> cases h2 : s.isEmpty <;> simp [h, h2]
  · show orStr (orOpt sgd sgda) "No Description." = _
    cases sgd with
    | none =>
        cases sgda with
        | none => rfl
        | some s =>
            simp [orOpt, orStr, truthyStr]
            cases h : s.isEmpty <;> simp [h]
    | some t =>
        cases sgda with
        | none =>
            simp [orOpt, orStr, truthyStr]
            cases h : t.isEmpty <;> simp [h]
        | some s =>
            simp [orOpt, orStr, truthyStr]
            cases h : t.isEmpty <;> cases h2 : s.isEmpty <;> simp [h, h2]

theorem orStr_eq_ite (a : Option String) (b : String) :
    orStr a b = if truthyStr a then a.getD "" else b := by
  cases a with
  | none => rfl
  | some s =>
      simp [orStr, truthyStr]
      cases h : s.isEmpty <;> simp [h]

theorem orStr_empty_left (b : String) : orStr (some "") b = b := by
  have h : ("" : String).isEmpty = true := by decide
  simp [orStr, h]

theorem orOpt_empty_left (b : Option String) : orOpt (some "") b = b := by
  have h : truthyStr (some "") = false := by decide
  simp [orOpt, h]

/-- C6: `cog_slash`'s wrapper returns a `CogCommandObject` made of the
command name (`name` if truthy, else `cmd.__name__`) and a record holding
exactly `func = cmd`, the resolved description, the resolved
auto-conversion map, `guild_ids`, the resolved option list, and
`has_subcommands`. -/
theorem cog_slash_descriptor_shape {α γ : Type}
    (go : Cmd → String → List α) (gac : List α → γ)
    (nm descr : Option String) (ac : Option γ) (g : Option (List Int))
    (opts : Option (List α)) (cmd : Cmd) :
    cog_slash go gac nm descr ac g opts cmd =
      { name := if truthyStr nm then nm.getD "" else cmd.name
        func := cmd
        description := resolveDesc descr cmd
        auto_convert := resolveAutoConv gac ac
          (resolveOpts go opts cmd (resolveDesc descr cmd))
        guild_ids := g
        api_options := resolveOpts go opts cmd (resolveDesc descr cmd)
        has_subcommands := false } := by
  rw [← orStr_eq_ite nm cmd.name]
  rfl

/-- C7: `cog_subcommand`'s wrapper returns a `CogSubcommandObject` made of
the `_sub` record (`func`, `name`, `description`, `base_desc`,
`sub_group_desc`, `auto_convert`, `guild_ids`, `api_options`), the base
name, the subcommand name (`name` if truthy, else `cmd.__name__`), and the
optional subcommand-group name, which stays `none` when absent. -/
theorem cog_subcommand_descriptor_shape {α γ : Type}
    (go : Cmd → String → List α) (gac : List α → γ)
    (base : String) (sg : Option String)
    (nm descr : Option String)
    (bd bda sgd sgda : Option String)
    (ac : Option γ) (g : Option (List Int))
    (opts : Option (List α)) (cmd : Cmd) :
    cog_subcommand go gac base sg nm descr bd bda sgd sgda ac g opts cmd =
      { sub :=
          { func := cmd
            name := if truthyStr nm then nm.getD "" else cmd.name
            description := resolveDesc descr cmd
            base_desc := orStr (orOpt bd bda) "No Description."
            sub_group_desc := orStr (orOpt sgd sgda) "No Description."
            auto_convert := resolveAutoConv gac ac
              (resolveOpts go opts cmd (resolveDesc descr cmd))
            guild_ids := g
            api_options := resolveOpts go opts cmd (resolveDesc descr cmd) }
        base := base
        name := if truthyStr nm then nm.getD "" else cmd.name
        subcommand_group := sg } := by
  rw [← orStr_eq_ite nm cmd.name]
  rfl

/-- C8: decoration stores the decorated function object and the
`guild_ids` argument verbatim in the descriptor, in both `cog_slash` and
`cog_subcommand`; the embedding is a pure function, so no argument is
mutated. -/
theorem decoration_frame {α γ : Type}
    (go : Cmd → String → List α) (gac : List α → γ)
    (nm descr : Option String) (ac : Option γ) (g : Option (List Int))
    (base : String) (sg : Option String)
    (bd bda sgd sgda : Option String)
    (opts : Option (List α)) (cmd : Cmd) :
    (cog_slash go gac nm descr ac g opts cmd).func = cmd
    ∧ (cog_slash go gac nm descr ac g opts cmd).guild_ids = g
    ∧ (cog_subcommand go gac base sg nm descr bd bda sgd sgda
        ac g opts cmd).sub.func = cmd
    ∧ (cog_subcommand go gac base sg nm descr bd bda sgd sgda
        ac g opts cmd).sub.guild_ids = g :=
  ⟨rfl, rfl, rfl, rfl⟩

/-- C9: a falsy (empty-string) argument behaves like a missing one:
`description = ""` falls back to the docstring then the placeholder,
`name = ""` falls back to `cmd.__name__`, and `base_description = ""` /
`subcommand_group_description = ""` fall back to their aliases then
`"No Description."`. -/
theorem falsy_args_treated_as_missing {α γ : Type}
    (go : Cmd → String → List α) (gac : List α → γ)
    (nm descr : Option String) (ac : Option γ) (g : Option (List Int))
    (base : String) (sg : Option String)
    (bd bda sgd sgda : Option String)
    (opts : Option (List α)) (cmd : Cmd) :
    (cog_slash go gac nm (some "") ac g opts cmd).description
      = (if truthyStr cmd.docstring then cmd.docstring.getD ""
         else "No description")
    ∧ (cog_slash go gac (some "") descr ac g opts cmd).name = cmd.name
    ∧ (cog_subcommand go gac base sg nm descr (some "") bda sgd sgda
        ac g opts cmd).sub.base_desc
      = (if truthyStr bda then bda.getD "" else "No Description.")
    ∧ (cog_subcommand go gac base sg nm descr bd bda (some "") sgda
        ac g opts cmd).sub.sub_group_desc
      = (if truthyStr sgda then sgda.getD "" else "No Description.") := by
  refine ⟨?_, ?_, ?_, ?_⟩
  · show orStr (orOpt (some "") cmd.docstring) "No description" = _
    rw [orOpt_empty_left, orStr_eq_ite]
  · show orStr (some "") cmd.name = _
    rw [orStr_empty_left]
  · show orStr (orOpt (some "") bda) "No Description." = _
    rw [orOpt_empty_left, orStr_eq_ite]
  · show orStr (orOpt (some "") sgda) "No Description." = _
    rw [orOpt_empty_left, orStr_eq_ite]

/-- C10: every descriptor produced by `cog_slash` has
`has_subcommands = False`, for all arguments and decorated functions. -/
theorem cog_slash_has_subcommands_false {α γ : Type}
    (go : Cmd → String → List α) (gac : List α → γ)
    (nm descr : Option String) (ac : Option γ) (g : Option (List Int))
    (opts : Option (List α)) (cmd : Cmd) :
    (cog_slash go gac nm descr ac g opts cmd).has_subcommands = false :=
  rfl

end CogExt
